import Mathlib

/-!
Verification of the Diffie-Hellman group-exchange key-exchange module
(`src/ssh/ssh_key_exchange.cc`) of the wanproxy repository.

The state machine, its four message branches, the transcript handling and
the exchange-hash construction are embedded from the source file.  The wire
codec (`SSH::UInt32`, `SSH::MPInt`, `SSH::String`), the session record, the
host-key collaborator, the hash primitive and the OpenSSL DH calls live in
other translation units that are not part of the provided sources; those
are modelled from the specification's §3, §6 and §4.3 collaborator
contracts, as noted on each definition.

Bytes are modelled as `Nat` values (every encoder only emits values below
256) and buffers as lists of bytes.
-/

abbrev Buffer := List Nat

/-- Big-endian interpretation of a byte string as a natural number. -/
def bytesToNat (l : Buffer) : Nat :=
  l.foldl (fun acc b => acc * 256 + b) 0

/-- Fuel-driven minimal big-endian byte representation; `natToBytesBE`
supplies `n` itself as fuel, which dominates the number of digits. -/
def natToBytesBEAux : Nat → Nat → Buffer
  | 0, _ => []
  | fuel + 1, n => if n = 0 then [] else natToBytesBEAux fuel (n / 256) ++ [n % 256]

/-- Minimal big-endian byte representation of a natural number
(empty for zero, no leading zero byte otherwise). -/
def natToBytesBE (n : Nat) : Buffer :=
  natToBytesBEAux n n

namespace SSH

/-- Modelled from the spec: `SSH::UInt32::encode` (wire codec, not under
src/): a `uint32` is a 4-byte big-endian unsigned integer (§6). -/
def UInt32.encode (n : Nat) : Buffer :=
  [n / 16777216 % 256, n / 65536 % 256, n / 256 % 256, n % 256]

/-- Modelled from the spec: `SSH::UInt32::decode` (wire codec, not under
src/): reads a 4-byte big-endian unsigned integer, consuming it from the
buffer; fails when fewer than four bytes remain. -/
def UInt32.decode : Buffer → Option (Nat × Buffer)
  | a :: b :: c :: d :: rest => some (((a * 256 + b) * 256 + c) * 256 + d, rest)
  | _ => none

/-- Modelled from the spec: `SSH::String::encode` (wire codec, not under
src/): a `string` is a 4-byte big-endian length followed by the raw
bytes (§6). -/
def String.encode (s : Buffer) : Buffer :=
  SSH.UInt32.encode s.length ++ s

/-- Modelled from the spec: `SSH::String::decode` (wire codec, not under
src/): reads the length prefix and then that many raw bytes, consuming
them; fails when the buffer is shorter than announced. -/
def String.decode (b : Buffer) : Option (Buffer × Buffer) :=
  match SSH.UInt32.decode b with
  | none => none
  | some (len, rest) =>
    if len ≤ rest.length then some (rest.take len, rest.drop len) else none

/-- Modelled from the spec: `SSH::MPInt::encode` (wire codec, not under
src/): a `bigint` is a 4-byte big-endian length followed by the
two's-complement big-endian magnitude, with a zero sign byte inserted
whenever the top bit of the first magnitude byte would otherwise be set,
and no superfluous leading zero bytes (§6).  Only the non-negative values
used by this protocol are modelled. -/
def MPInt.encode (n : Nat) : Buffer :=
  let m := natToBytesBE n
  let m := if 128 ≤ m.headD 0 then 0 :: m else m
  SSH.UInt32.encode m.length ++ m

/-- Modelled from the spec: `SSH::MPInt::decode` (wire codec, not under
src/): reads the length prefix and the magnitude bytes, rejecting an
encoding with a superfluous leading zero byte (§6, §8 round-trip
property).  Only non-negative values are modelled: an encoding whose
first byte has the high bit set (a negative number) is rejected. -/
def MPInt.decode (b : Buffer) : Option (Nat × Buffer) :=
  match SSH.UInt32.decode b with
  | none => none
  | some (len, rest) =>
    if len ≤ rest.length then
      match rest.take len with
      | [] => some (0, rest.drop len)
      | b0 :: t =>
        if b0 = 0 then
          match t with
          | [] => none
          | b1 :: _ =>
            if 128 ≤ b1 then some (bytesToNat (b0 :: t), rest.drop len) else none
        else if 128 ≤ b0 then none
        else some (bytesToNat (b0 :: t), rest.drop len)
    else none

end SSH

/-- Connection role (source: `SSH::ClientRole` / `SSH::ServerRole`,
`ssh_session.h`, not under src/; modelled from the spec §3: the session
carries the connection role, Initiator or Responder). -/
inductive Role where
  | ClientRole
  | ServerRole
deriving DecidableEq

/-- Modelled from the spec: the host-key collaborator contract of §6
(`SSH::ServerHostKey`, not under src/): `sign(data) -> signature` (which
the source checks for failure), `verify(signature, data) -> bool`,
`encode_public_key() -> blob` (modelled as the fixed blob `public_key`),
`decode_public_key(blob) -> bool`. -/
structure ServerHostKey where
  sign : Buffer → Option Buffer
  verify : Buffer → Buffer → Bool
  public_key : Buffer
  decode_public_key : Buffer → Bool

/-- Modelled from the spec §3 (`SSH::Session`, not under src/): the
session record referenced by the key-exchange object, with the fields the
source reads (`role_`, version strings, negotiation payloads, chosen host
key) and writes (`exchange_hash_`, `shared_secret_`, `session_id_`). -/
structure Session where
  role_ : Role
  client_version_ : Buffer
  server_version_ : Buffer
  client_kexinit_ : Buffer
  server_kexinit_ : Buffer
  server_host_key_ : ServerHostKey
  exchange_hash_ : Buffer
  shared_secret_ : Buffer
  session_id_ : Buffer

/-- The OpenSSL `DH` object held through `dh_`: prime `p` and generator
`g` (valid once `DH_set0_pqg` ran, which is the point where the model
stores the record), and the private exponent once `DH_generate_key` ran.
The public key is `g ^ priv mod p`. -/
structure DHParams where
  p : Nat
  g : Nat
  priv : Option Nat

/-- Public value of a DH keypair with private exponent `x`. -/
def DHParams.pub (p g x : Nat) : Nat := g ^ x % p

/-- The mutable state of one `DiffieHellmanGroupExchange` object: the
referenced session (modelled by value, threaded through every step), the
`dh_` pointer (NULL at construction), the transcript buffer
`key_exchange_`, and the shared-secret bignum `k_` (NULL at
construction). -/
structure KexState where
  session_ : Session
  dh_ : Option DHParams
  key_exchange_ : Buffer
  k_ : Option Nat

namespace DiffieHellmanGroupExchange

/-- Source line 52: `#define DH_GROUP_MIN 1024`. -/
def DH_GROUP_MIN : Nat := 1024

/-- Source line 53: `#define DH_GROUP_MAX 8192`. -/
def DH_GROUP_MAX : Nat := 8192

/-- Source line 73: message tag 34. -/
def DiffieHellmanGroupExchangeRequest : Nat := 34

/-- Source line 74: message tag 31. -/
def DiffieHellmanGroupExchangeGroup : Nat := 31

/-- Source line 75: message tag 32 (source name
`DiffieHellmanGroupExchangeInitialize`). -/
def DiffieHellmanGroupExchangeInitMsg : Nat := 32

/-- Source line 76: message tag 33. -/
def DiffieHellmanGroupExchangeReply : Nat := 33

/-- Source lines 59-69: the compiled-in `test_prime_and_generator` byte
array (a big-integer encoding of the fixed test prime followed by a
big-integer encoding of the generator). -/
def test_prime_and_generator : Buffer :=
  [0x00, 0x00, 0x00, 0x81, 0x00, 0xe3, 0x1d, 0xfe, 0x85, 0x59, 0x9b, 0xcb, 0x5c, 0x2b, 0xbe, 0xcf,
   0x20, 0x1f, 0x5f, 0x49, 0xf1, 0xea, 0x31, 0x07, 0x7d, 0xa9, 0x26, 0xcb, 0x31, 0x03, 0x9d, 0x82,
   0x33, 0x2f, 0xed, 0x67, 0xa3, 0xa9, 0xb1, 0xc9, 0xe6, 0x34, 0x6c, 0xd7, 0xb5, 0x1a, 0x0a, 0x94,
   0x11, 0xa7, 0xd9, 0x26, 0xff, 0x0e, 0x8d, 0x72, 0xc1, 0x7b, 0x53, 0x9a, 0x13, 0x78, 0x7e, 0x16,
   0x38, 0x74, 0x7c, 0xb2, 0xdc, 0x60, 0x2c, 0x8c, 0xe8, 0x31, 0xf8, 0xd9, 0x7b, 0xac, 0xa6, 0x71,
   0xee, 0x61, 0x0c, 0x1a, 0xa4, 0x2f, 0x47, 0x2f, 0xe2, 0x22, 0xbd, 0x01, 0xe5, 0x25, 0xb6, 0x95,
   0xda, 0x3f, 0xf7, 0x03, 0xf4, 0x0e, 0xd6, 0x8c, 0xbb, 0x69, 0x1d, 0xcb, 0xd1, 0xe2, 0x60, 0xdb,
   0xf5, 0x0b, 0x85, 0x98, 0xe6, 0x17, 0xbe, 0x29, 0x4e, 0xa7, 0x90, 0x11, 0xac, 0xbc, 0xa5, 0x3e,
   0x05, 0xfe, 0xe9, 0x56, 0x93, 0x00, 0x00, 0x00, 0x01, 0x02]

/-- The fixed test prime: the value of the first big-integer encoded in
`test_prime_and_generator` (its 4-byte length prefix announces 129
magnitude bytes, a zero sign byte followed by 128 value bytes). -/
def testPrime : Nat := bytesToNat ((test_prime_and_generator.drop 4).take 129)

/-- Source lines 95-102: the constructor initializes `dh_` to NULL,
`key_exchange_` to the empty buffer and `k_` to NULL. -/
def mkState (s : Session) : KexState :=
  { session_ := s, dh_ := none, key_exchange_ := [], k_ := none }

/-- Source lines 147-156: clamp `min` up to `DH_GROUP_MIN`, clamp `max`
down to `DH_GROUP_MAX`, fail when `min > max`, clamp `n` into
`[min, max]`. -/
def requestClamp (minv nv maxv : Nat) : Option Nat :=
  let minv := if minv < DH_GROUP_MIN then DH_GROUP_MIN else minv
  let maxv := if maxv > DH_GROUP_MAX then DH_GROUP_MAX else maxv
  if minv > maxv then none
  else some (if nv < minv then minv else if nv > maxv then maxv else nv)

/-- The clamp function used by the specification's statement
`clamp(x, lo, hi)`. -/
def specClamp (x lo hi : Nat) : Nat :=
  if x < lo then lo else if hi < x then hi else x

/-- Result of one `input()` call: `success` carries the new state, the
packets handed to `sender->produce` and whether
`sender->flush(SSH::ALGORITHM_NEGOTIATED)` was signalled; `failure`
carries the state as left behind when `input()` returns `false`; `undef`
marks undefined behavior of the source (a NULL `dh_` dereference, a
failed `ASSERT`, or `in->peek()` on an empty buffer). -/
inductive InputResult where
  | success (st : KexState) (produced : List Buffer) (flushed : Bool)
  | failure (st : KexState)
  | undef

/-- The state left behind by an `input()` call, when defined. -/
def InputResult.state? : InputResult → Option KexState
  | .success st _ _ => some st
  | .failure st => some st
  | .undef => none

/-- The state after a successful `input()` call. -/
def InputResult.ok? : InputResult → Option KexState
  | .success st _ _ => some st
  | _ => none

def InputResult.isSuccess : InputResult → Bool
  | .success _ _ _ => true
  | _ => false

def InputResult.isFailure : InputResult → Bool
  | .failure _ => true
  | _ => false

def InputResult.isUndef : InputResult → Bool
  | .undef => true
  | _ => false

/-- The packets handed to `sender->produce` by an `input()` call. -/
def InputResult.produced : InputResult → List Buffer
  | .success _ out _ => out
  | _ => []

/-- Source lines 346-383, `exchange_finish(remote_pubkey)`:
compute `K = remote_pubkey ^ x mod p` (`DH_compute_key` followed by
`BN_bin2bn`; OpenSSL error returns are not modelled, the assertion
`dh_ != NULL` and the use of an ungenerated keypair are `none`), build
the canonical hash input, hash it with the template's hash primitive
(modelled as the function parameter `hash`; the spec's §6 contract makes
it pure and stateless), then commit `exchange_hash_`, append the
encoding of `K` to `shared_secret_`, and set `session_id_` if it is
still empty. -/
def exchange_finish (hash : Buffer → Buffer) (st : KexState)
    (remote_pubkey : Nat) : Option KexState :=
  match st.dh_ with
  | none => none
  | some dh =>
    match dh.priv with
    | none => none
    | some x =>
      let k := remote_pubkey ^ x % dh.p
      let server_public_key := st.session_.server_host_key_.public_key
      let data : Buffer :=
        SSH.String.encode st.session_.client_version_
          ++ SSH.String.encode st.session_.server_version_
          ++ SSH.String.encode st.session_.client_kexinit_
          ++ SSH.String.encode st.session_.server_kexinit_
          ++ SSH.String.encode server_public_key
          ++ st.key_exchange_
          ++ SSH.MPInt.encode k
      let exchange_hash := hash data
      some { st with
        k_ := some k,
        session_ := { st.session_ with
          exchange_hash_ := exchange_hash,
          shared_secret_ := st.session_.shared_secret_ ++ SSH.MPInt.encode k,
          session_id_ :=
            if st.session_.session_id_ = [] then exchange_hash
            else st.session_.session_id_ } }

/-- Source lines 134-199, the `DiffieHellmanGroupExchangeRequest` branch
of `input()`: reject unless acting as server; assign the message body to
`key_exchange_`; decode and clamp `(min, n, max)`; build the fixed test
group (`USE_TEST_GROUP` is defined at line 55; the ignored decode return
values and the `ASSERT(group.empty())` are modelled as `undef`, though
they cannot fire on the compiled-in constant); append the group encoding
to the transcript and emit the Group packet. -/
def inputRequest (st : KexState) (rest : Buffer) : InputResult :=
  if st.session_.role_ ≠ Role.ServerRole then .failure st
  else
    let st1 := { st with key_exchange_ := rest }
    match SSH.UInt32.decode rest with
    | none => .failure st1
    | some (minv, r1) =>
      match SSH.UInt32.decode r1 with
      | none => .failure st1
      | some (nv, r2) =>
        match SSH.UInt32.decode r2 with
        | none => .failure st1
        | some (maxv, _r3) =>
          match requestClamp minv nv maxv with
          | none => .failure st1
          | some _n =>
            match SSH.MPInt.decode test_prime_and_generator with
            | none => .undef
            | some (p, prest) =>
              match SSH.MPInt.decode prest with
              | none => .undef
              | some (g, grest) =>
                if grest ≠ [] then .undef
                else
                  let group := SSH.MPInt.encode p ++ SSH.MPInt.encode g
                  let st2 := { st1 with
                    dh_ := some { p := p, g := g, priv := none },
                    key_exchange_ := st1.key_exchange_ ++ group }
                  .success st2
                    [[DiffieHellmanGroupExchangeGroup] ++ group] false

/-- Source lines 200-242, the `DiffieHellmanGroupExchangeGroup` branch
of `input()`: reject unless acting as client; append the message body to
the transcript; decode `(p, g)`; generate the local keypair
(`DH_generate_key`, modelled by the supplied private exponent `priv`;
its error return is not modelled); append the encoding of the local
public value to the transcript and emit the Initialize packet. -/
def inputGroup (st : KexState) (priv : Nat) (rest : Buffer) : InputResult :=
  if st.session_.role_ ≠ Role.ClientRole then .failure st
  else
    let st1 := { st with key_exchange_ := st.key_exchange_ ++ rest }
    match SSH.MPInt.decode rest with
    | none => .failure st1
    | some (p, r1) =>
      match SSH.MPInt.decode r1 with
      | none => .failure st1
      | some (g, _r2) =>
        let er := DHParams.pub p g priv
        let iniBody := SSH.MPInt.encode er
        let st2 := { st1 with
          dh_ := some { p := p, g := g, priv := some priv },
          key_exchange_ := st1.key_exchange_ ++ iniBody }
        .success st2 [[DiffieHellmanGroupExchangeInitMsg] ++ iniBody] false

/-- Source lines 243-282, the branch of `input()` for tag 32 (source
name `DiffieHellmanGroupExchangeInitialize`): reject unless acting as
server; append the message body to the transcript; decode the peer
public value `e`; run `DH_generate_key(dh_)` (a NULL `dh_` dereference
is `undef`; the modelled generation draws the private exponent `priv`);
append the encoding of the local public value `fr` to the transcript;
run `exchange_finish(e)`; sign the exchange hash (failure returns
`false` after the session fields were committed); emit the Reply packet.
The packet's big-integer field encodes the local variable `f`, which the
source never assigns in this branch: the model takes its indeterminate
contents as the parameter `uninitF`. -/
def inputInitMsg (hash : Buffer → Buffer) (st : KexState)
    (priv uninitF : Nat) (rest : Buffer) : InputResult :=
  if st.session_.role_ ≠ Role.ServerRole then .failure st
  else
    let st1 := { st with key_exchange_ := st.key_exchange_ ++ rest }
    match SSH.MPInt.decode rest with
    | none => .failure st1
    | some (e, _r1) =>
      match st1.dh_ with
      | none => .undef
      | some dh =>
        let fr := DHParams.pub dh.p dh.g priv
        let st2 := { st1 with
          dh_ := some { dh with priv := some priv },
          key_exchange_ := st1.key_exchange_ ++ SSH.MPInt.encode fr }
        match exchange_finish hash st2 e with
        | none => .undef
        | some st3 =>
          match st3.session_.server_host_key_.sign st3.session_.exchange_hash_ with
          | none => .failure st3
          | some signature =>
            let server_public_key := st3.session_.server_host_key_.public_key
            let packet := [DiffieHellmanGroupExchangeReply]
              ++ SSH.String.encode server_public_key
              ++ SSH.MPInt.encode uninitF
              ++ SSH.String.encode signature
            .success st3 [packet] true

/-- Source lines 283-320, the `DiffieHellmanGroupExchangeReply` branch
of `input()`: reject unless acting as client; decode the host-key blob,
the peer public value `f` and the signature; validate the host-key blob;
append the encoding of `f` to the transcript; run `exchange_finish(f)`
(a NULL `dh_` or an ungenerated keypair is `undef`); verify the
signature against the computed exchange hash (failure returns `false`
after the session fields were committed by `exchange_finish`); no packet
is produced. -/
def inputReply (hash : Buffer → Buffer) (st : KexState)
    (rest : Buffer) : InputResult :=
  if st.session_.role_ ≠ Role.ClientRole then .failure st
  else
    match SSH.String.decode rest with
    | none => .failure st
    | some (server_public_key, r1) =>
      match SSH.MPInt.decode r1 with
      | none => .failure st
      | some (f, r2) =>
        match SSH.String.decode r2 with
        | none => .failure st
        | some (signature, _r3) =>
          if ¬ st.session_.server_host_key_.decode_public_key server_public_key
          then .failure st
          else
            let st1 := { st with
              key_exchange_ := st.key_exchange_ ++ SSH.MPInt.encode f }
            match exchange_finish hash st1 f with
            | none => .undef
            | some st2 =>
              if ¬ st2.session_.server_host_key_.verify signature
                  st2.session_.exchange_hash_
              then .failure st2
              else .success st2 [] true

/-- Source lines 117-325, `input(sender, in)`: dispatch on the leading
tag byte (`in->peek()`; an empty buffer is `undef`), skip it, and run
the branch; an unknown tag returns `false`.  `hash` is the template's
hash primitive, `priv` the private exponent drawn by any
`DH_generate_key` call in the branch, `uninitF` the indeterminate
contents of the uninitialized local `f` read by the tag-32 branch. -/
def input (hash : Buffer → Buffer) (st : KexState) (priv uninitF : Nat)
    (inb : Buffer) : InputResult :=
  match inb with
  | [] => .undef
  | tag :: rest =>
    if tag = DiffieHellmanGroupExchangeRequest then inputRequest st rest
    else if tag = DiffieHellmanGroupExchangeGroup then inputGroup st priv rest
    else if tag = DiffieHellmanGroupExchangeInitMsg then
      inputInitMsg hash st priv uninitF rest
    else if tag = DiffieHellmanGroupExchangeReply then inputReply hash st rest
    else .failure st

/-- Source lines 327-343, `init(out)`: valid only for the client role
(the `ASSERT` on a server instance is `none`, as is the assertion that
`out` starts empty — the model always hands back a fresh buffer); build
the fixed Request triple (1024, 1024, 8192), seed the transcript with
the request body, and return the Request packet. -/
def init (st : KexState) : Option (KexState × Buffer) :=
  if st.session_.role_ ≠ Role.ClientRole then none
  else
    let request := SSH.UInt32.encode DH_GROUP_MIN
      ++ SSH.UInt32.encode DH_GROUP_MIN
      ++ SSH.UInt32.encode DH_GROUP_MAX
    some ({ st with key_exchange_ := request },
      [DiffieHellmanGroupExchangeRequest] ++ request)

end DiffieHellmanGroupExchange

open DiffieHellmanGroupExchange

/-- Concrete hash primitive used by the witness theorems: a pure function
of the input, with nonempty output. -/
def hFix : Buffer → Buffer := fun b => [b.length % 256]

/-- Concrete host key used by the witness theorems. -/
def keyFix : ServerHostKey :=
  { sign := fun _ => some [1, 2], verify := fun _ _ => true,
    public_key := [5], decode_public_key := fun _ => true }

/-- Concrete host key whose verification always fails. -/
def keyRej : ServerHostKey := { keyFix with verify := fun _ _ => false }

/-- Concrete responder session used by the witness theorems. -/
def sessFixS : Session :=
  { role_ := Role.ServerRole, client_version_ := [65],
    server_version_ := [66], client_kexinit_ := [67],
    server_kexinit_ := [68], server_host_key_ := keyFix,
    exchange_hash_ := [], shared_secret_ := [], session_id_ := [] }

/-- Concrete initiator session used by the witness theorems. -/
def sessFixC : Session := { sessFixS with role_ := Role.ClientRole }

/-- Concrete initiator session whose host key rejects every signature. -/
def sessFixRej : Session := { sessFixC with server_host_key_ := keyRej }

/-- Concrete Request packet (min = n = 1024, max = 8192). -/
def reqFix : Buffer :=
  [34] ++ (SSH.UInt32.encode 1024 ++ (SSH.UInt32.encode 1024 ++ SSH.UInt32.encode 8192))

/-- Responder state after processing `reqFix`. -/
def st1Fix : KexState :=
  ((input hFix (mkState sessFixS) 3 0 reqFix).ok?).getD (mkState sessFixS)

/-- Initiator state with a negotiated small group and a rejecting host
key, about to process a Reply. -/
def stRejFix : KexState :=
  { mkState sessFixRej with
    dh_ := some { p := 23, g := 5, priv := some 6 }, key_exchange_ := [9] }

/-- Concrete Reply packet (blob `[5]`, `f = 8`, signature `[1, 2]`). -/
def replyFix : Buffer :=
  [33] ++ (SSH.String.encode [5] ++ (SSH.MPInt.encode 8 ++ SSH.String.encode [1, 2]))

/-- The failure state `input hFix stRejFix 6 0 replyFix` leaves behind:
the transcript got the encoding of `f = 8` appended and
`exchange_finish` committed the session fields before the signature
verification failed (hash input length 36, `K = 8 ^ 6 mod 23 = 13`). -/
def stRejFailFix : KexState :=
  { stRejFix with
    key_exchange_ := [9] ++ SSH.MPInt.encode 8,
    k_ := some 13,
    session_ := { sessFixRej with
      exchange_hash_ := [36],
      shared_secret_ := [0, 0, 0, 1, 13],
      session_id_ := [36] } }

/-- `stRejFix` with an already-populated `session_id`. -/
def stPopFix : KexState :=
  { stRejFix with
    session_ := { sessFixRej with session_id_ := [9] } }

/-- The state `exchange_finish hFix stRejFix 8` commits (first
handshake: `K = 8 ^ 6 mod 23 = 13`, hash input of length 31). -/
def stFin1Fix : KexState :=
  { stRejFix with
    k_ := some 13,
    session_ := { sessFixRej with
      exchange_hash_ := [31],
      shared_secret_ := [0, 0, 0, 1, 13],
      session_id_ := [31] } }

/-- A rekey state over the session committed by `stFin1Fix`: a fresh
group and keypair and a fresh transcript. -/
def stRekeyFix : KexState :=
  { stFin1Fix with
    dh_ := some { p := 23, g := 5, priv := some 3 },
    key_exchange_ := [1, 2] }

theorem bytesToNat_append_singleton (l : Buffer) (b : Nat) :
    bytesToNat (l ++ [b]) = bytesToNat l * 256 + b := by
  simp [bytesToNat, List.foldl_append]

theorem bytesToNat_cons_zero (l : Buffer) :
    bytesToNat (0 :: l) = bytesToNat l := by
  simp [bytesToNat]

theorem natToBytesBEAux_zero (fuel : Nat) : natToBytesBEAux fuel 0 = [] := by
  cases fuel <;> simp [natToBytesBEAux]

theorem natToBytesBEAux_bytesToNat :
    ∀ fuel n, n ≤ fuel → bytesToNat (natToBytesBEAux fuel n) = n := by
  intro fuel
  induction fuel with
  | zero =>
    intro n hn
    interval_cases n
    simp [natToBytesBEAux, bytesToNat]
  | succ fuel ih =>
    intro n hn
    by_cases h0 : n = 0
    · simp [natToBytesBEAux, h0, bytesToNat]
    · have hdiv : n / 256 ≤ fuel := by
        have : n / 256 < n := Nat.div_lt_self (Nat.pos_of_ne_zero h0) (by norm_num)
        omega
      simp only [natToBytesBEAux, h0, if_false]
      rw [bytesToNat_append_singleton, ih _ hdiv]
      omega

theorem natToBytesBE_bytesToNat (n : Nat) :
    bytesToNat (natToBytesBE n) = n :=
  natToBytesBEAux_bytesToNat n n (Nat.le_refl n)

theorem natToBytesBEAux_head :
    ∀ fuel n, n ≠ 0 → n ≤ fuel →
      ∃ h t, natToBytesBEAux fuel n = h :: t ∧ h ≠ 0 := by
  intro fuel
  induction fuel with
  | zero => intro n hn h; omega
  | succ fuel ih =>
    intro n hn _
    simp only [natToBytesBEAux, hn, if_false]
    by_cases hsmall : n / 256 = 0
    · refine ⟨n % 256, [], ?_, ?_⟩
      · simp [natToBytesBEAux, hsmall, natToBytesBEAux_zero]
      · have : n < 256 := by
          rcases Nat.lt_or_ge n 256 with h | h
          · exact h
          · exact absurd (Nat.div_le_div_right (c := 256) h) (by simp [hsmall])
        omega
    · have hdiv : n / 256 ≤ fuel := by
        have : n / 256 < n := Nat.div_lt_self (Nat.pos_of_ne_zero hn) (by norm_num)
        omega
      obtain ⟨h, t, heq, hne⟩ := ih (n / 256) hsmall hdiv
      exact ⟨h, t ++ [n % 256], by rw [heq]; simp, hne⟩

theorem natToBytesBE_head (n : Nat) (hn : n ≠ 0) :
    ∃ h t, natToBytesBE n = h :: t ∧ h ≠ 0 :=
  natToBytesBEAux_head n n hn (Nat.le_refl n)

theorem uint32_decode_encode (n : Nat) (r : Buffer) :
    SSH.UInt32.decode (SSH.UInt32.encode n ++ r) = some (n % 4294967296, r) := by
  simp only [SSH.UInt32.encode, SSH.UInt32.decode, List.cons_append, List.nil_append]
  congr 2
  omega

theorem uint32_decode_encode_lt (n : Nat) (r : Buffer) (h : n < 4294967296) :
    SSH.UInt32.decode (SSH.UInt32.encode n ++ r) = some (n, r) := by
  rw [uint32_decode_encode, Nat.mod_eq_of_lt h]

theorem take_len_append (l r : Buffer) : (l ++ r).take l.length = l := by
  induction l with
  | nil => simp
  | cons a l ih => simp [ih]

theorem drop_len_append (l r : Buffer) : (l ++ r).drop l.length = r := by
  induction l with
  | nil => simp
  | cons a l ih => simp [ih]

theorem string_decode_encode (s r : Buffer) (h : s.length < 4294967296) :
    SSH.String.decode (SSH.String.encode s ++ r) = some (s, r) := by
  simp only [SSH.String.decode, SSH.String.encode, List.append_assoc,
    uint32_decode_encode_lt s.length (s ++ r) h]
  rw [if_pos (by simp), take_len_append, drop_len_append]

theorem mpint_decode_encode (n : Nat) (r : Buffer)
    (h : (natToBytesBE n).length + 1 < 4294967296) :
    SSH.MPInt.decode (SSH.MPInt.encode n ++ r) = some (n, r) := by
  by_cases h0 : n = 0
  · subst h0
    have hz : natToBytesBE 0 = [] := rfl
    simp [SSH.MPInt.encode, SSH.MPInt.decode, hz,
      uint32_decode_encode_lt 0 r (by norm_num)]
  · obtain ⟨hd, t, heq, hne⟩ := natToBytesBE_head n h0
    have hval : bytesToNat (hd :: t) = n := by rw [← heq]; exact natToBytesBE_bytesToNat n
    by_cases hsign : 128 ≤ hd
    · have henc : SSH.MPInt.encode n =
          SSH.UInt32.encode (t.length + 2) ++ (0 :: hd :: t) := by
        simp [SSH.MPInt.encode, heq, hsign]
      have hlen : t.length + 2 < 4294967296 := by
        have : (natToBytesBE n).length = t.length + 1 := by rw [heq]; simp
        omega
      rw [henc, List.append_assoc]
      simp only [SSH.MPInt.decode,
        uint32_decode_encode_lt (t.length + 2) ((0 :: hd :: t) ++ r) hlen]
      rw [if_pos (show t.length + 2 ≤ ((0 :: hd :: t) ++ r).length by
        simp only [List.length_append, List.length_cons]; omega)]
      have htake : ((0 :: hd :: t) ++ r).take (t.length + 2) = 0 :: hd :: t :=
        take_len_append (0 :: hd :: t) r
      have hdrop : ((0 :: hd :: t) ++ r).drop (t.length + 2) = r :=
        drop_len_append (0 :: hd :: t) r
      rw [htake, hdrop]
      simp [hsign, bytesToNat_cons_zero, hval]
    · have henc : SSH.MPInt.encode n =
          SSH.UInt32.encode (t.length + 1) ++ (hd :: t) := by
        simp [SSH.MPInt.encode, heq, hsign]
      have hlen : t.length + 1 < 4294967296 := by
        have : (natToBytesBE n).length = t.length + 1 := by rw [heq]; simp
        omega
      rw [henc, List.append_assoc]
      simp only [SSH.MPInt.decode,
        uint32_decode_encode_lt (t.length + 1) ((hd :: t) ++ r) hlen]
      rw [if_pos (show t.length + 1 ≤ ((hd :: t) ++ r).length by
        simp only [List.length_append, List.length_cons]; omega)]
      have htake : ((hd :: t) ++ r).take (t.length + 1) = hd :: t :=
        take_len_append (hd :: t) r
      have hdrop : ((hd :: t) ++ r).drop (t.length + 1) = r :=
        drop_len_append (hd :: t) r
      rw [htake, hdrop]
      simp [hne, hsign, hval]

theorem uint32_decode_encode_nil (n : Nat) (h : n < 4294967296) :
    SSH.UInt32.decode (SSH.UInt32.encode n) = some (n, []) := by
  have := uint32_decode_encode_lt n [] h
  simpa using this

theorem string_decode_encode_nil (s : Buffer) (h : s.length < 4294967296) :
    SSH.String.decode (SSH.String.encode s) = some (s, []) := by
  have := string_decode_encode s [] h
  simpa using this

theorem mpint_decode_encode_nil (n : Nat)
    (h : (natToBytesBE n).length + 1 < 4294967296) :
    SSH.MPInt.decode (SSH.MPInt.encode n) = some (n, []) := by
  have := mpint_decode_encode n [] h
  simpa using this

set_option maxRecDepth 4096 in
theorem testGroup_decode1 :
    SSH.MPInt.decode test_prime_and_generator = some (testPrime, [0, 0, 0, 1, 2]) := by
  decide

theorem testGroup_decode2 :
    SSH.MPInt.decode [0, 0, 0, 1, 2] = some (2, []) := by
  decide

theorem exchange_finish_eval (hash : Buffer → Buffer) (st : KexState)
    (p g x r : Nat) (hdh : st.dh_ = some { p := p, g := g, priv := some x }) :
    exchange_finish hash st r =
      some { st with
        k_ := some (r ^ x % p),
        session_ := { st.session_ with
          exchange_hash_ := hash (SSH.String.encode st.session_.client_version_
            ++ SSH.String.encode st.session_.server_version_
            ++ SSH.String.encode st.session_.client_kexinit_
            ++ SSH.String.encode st.session_.server_kexinit_
            ++ SSH.String.encode st.session_.server_host_key_.public_key
            ++ st.key_exchange_
            ++ SSH.MPInt.encode (r ^ x % p)),
          shared_secret_ := st.session_.shared_secret_
            ++ SSH.MPInt.encode (r ^ x % p),
          session_id_ :=
            if st.session_.session_id_ = []
            then hash (SSH.String.encode st.session_.client_version_
              ++ SSH.String.encode st.session_.server_version_
              ++ SSH.String.encode st.session_.client_kexinit_
              ++ SSH.String.encode st.session_.server_kexinit_
              ++ SSH.String.encode st.session_.server_host_key_.public_key
              ++ st.key_exchange_
              ++ SSH.MPInt.encode (r ^ x % p))
            else st.session_.session_id_ } } := by
  simp [exchange_finish, hdh]

/-- C4: the exchange-hash input built by `exchange_finish` is exactly the
concatenation length-prefixed client version ∥ length-prefixed server
version ∥ length-prefixed client negotiation payload ∥ length-prefixed
server negotiation payload ∥ length-prefixed host-key public blob ∥
transcript ∥ big-integer encoding of the shared secret `K`, with
client-side values preceding server-side values regardless of the local
role, and the configured hash primitive applied to that input yields
`exchange_hash`. -/
theorem C4_exchange_hash_input (hash : Buffer → Buffer) (st : KexState)
    (p g x r : Nat) (hdh : st.dh_ = some { p := p, g := g, priv := some x }) :
    ∃ st', exchange_finish hash st r = some st' ∧
      st'.session_.exchange_hash_ =
        hash (SSH.String.encode st.session_.client_version_
          ++ SSH.String.encode st.session_.server_version_
          ++ SSH.String.encode st.session_.client_kexinit_
          ++ SSH.String.encode st.session_.server_kexinit_
          ++ SSH.String.encode st.session_.server_host_key_.public_key
          ++ st.key_exchange_
          ++ SSH.MPInt.encode (r ^ x % p)) ∧
      ∀ ρ, ∃ st2,
        exchange_finish hash
          { st with session_ := { st.session_ with role_ := ρ } } r = some st2 ∧
        st2.session_.exchange_hash_ = st'.session_.exchange_hash_ := by
  refine ⟨_, exchange_finish_eval hash st p g x r hdh, rfl, ?_⟩
  intro ρ
  exact ⟨_, exchange_finish_eval hash _ p g x r hdh, rfl⟩

/-- C4 witness: concrete instance. -/
theorem C4_exchange_hash_input_witness :
    ∃ st', exchange_finish hFix stRejFix 8 = some st' ∧
      st'.session_.exchange_hash_ =
        hFix (SSH.String.encode stRejFix.session_.client_version_
          ++ SSH.String.encode stRejFix.session_.server_version_
          ++ SSH.String.encode stRejFix.session_.client_kexinit_
          ++ SSH.String.encode stRejFix.session_.server_kexinit_
          ++ SSH.String.encode stRejFix.session_.server_host_key_.public_key
          ++ stRejFix.key_exchange_
          ++ SSH.MPInt.encode (8 ^ 6 % 23)) ∧
      ∀ ρ, ∃ st2,
        exchange_finish hFix
          { stRejFix with session_ := { stRejFix.session_ with role_ := ρ } } 8 = some st2 ∧
        st2.session_.exchange_hash_ = st'.session_.exchange_hash_ :=
  C4_exchange_hash_input hFix stRejFix 23 5 6 8 rfl

/-- C5: two invocations of the exchange-hash computation with identical
version strings, negotiation payloads, host-key blob, transcript and
shared-secret integer `K` produce bit-identical `exchange_hash` values. -/
theorem C5_determinism (hash : Buffer → Buffer) (stA stB : KexState)
    (p1 g1 x1 r1 p2 g2 x2 r2 : Nat)
    (h1 : stA.dh_ = some { p := p1, g := g1, priv := some x1 })
    (h2 : stB.dh_ = some { p := p2, g := g2, priv := some x2 })
    (hcv : stA.session_.client_version_ = stB.session_.client_version_)
    (hsv : stA.session_.server_version_ = stB.session_.server_version_)
    (hck : stA.session_.client_kexinit_ = stB.session_.client_kexinit_)
    (hsk : stA.session_.server_kexinit_ = stB.session_.server_kexinit_)
    (hpk : stA.session_.server_host_key_.public_key
      = stB.session_.server_host_key_.public_key)
    (htr : stA.key_exchange_ = stB.key_exchange_)
    (hK : r1 ^ x1 % p1 = r2 ^ x2 % p2) :
    ∃ a b, exchange_finish hash stA r1 = some a ∧
      exchange_finish hash stB r2 = some b ∧
      a.session_.exchange_hash_ = b.session_.exchange_hash_ := by
  refine ⟨_, _, exchange_finish_eval hash stA p1 g1 x1 r1 h1,
    exchange_finish_eval hash stB p2 g2 x2 r2 h2, ?_⟩
  simp [hcv, hsv, hck, hsk, hpk, htr, hK]

/-- C5 witness: concrete two-run instance (different private exponents
and peer values with the same shared secret `8 ^ 6 % 23 = 12 ^ 6 % 23`
would be overkill; here the second run repeats the group but swaps the
state record). -/
theorem C5_determinism_witness :
    ∃ a b, exchange_finish hFix stRejFix 8 = some a ∧
      exchange_finish hFix { stRejFix with k_ := none } 8 = some b ∧
      a.session_.exchange_hash_ = b.session_.exchange_hash_ :=
  C5_determinism hFix stRejFix { stRejFix with k_ := none }
    23 5 6 8 23 5 6 8 rfl rfl rfl rfl rfl rfl rfl rfl rfl

/-- C8: `session_id` is write-once at the commit point: a successful
exchange-hash computation with `session_id` still empty sets it to that
computation's `exchange_hash`; a later successful computation (rekey,
fresh key-exchange state over the same session) updates `exchange_hash`
and `shared_secret` but leaves `session_id` unchanged. -/
theorem C8_session_id_write_once (hash : Buffer → Buffer) (st : KexState)
    (p g x r : Nat) (hdh : st.dh_ = some { p := p, g := g, priv := some x }) :
    (st.session_.session_id_ = [] →
      ∃ st', exchange_finish hash st r = some st' ∧
        st'.session_.session_id_ = st'.session_.exchange_hash_)
    ∧ (st.session_.session_id_ ≠ [] →
      ∃ st', exchange_finish hash st r = some st' ∧
        st'.session_.session_id_ = st.session_.session_id_ ∧
        st'.session_.exchange_hash_ =
          hash (SSH.String.encode st.session_.client_version_
            ++ SSH.String.encode st.session_.server_version_
            ++ SSH.String.encode st.session_.client_kexinit_
            ++ SSH.String.encode st.session_.server_kexinit_
            ++ SSH.String.encode st.session_.server_host_key_.public_key
            ++ st.key_exchange_
            ++ SSH.MPInt.encode (r ^ x % p)) ∧
        st'.session_.shared_secret_ =
          st.session_.shared_secret_ ++ SSH.MPInt.encode (r ^ x % p))
    ∧ (∀ st' st2 p2 g2 x2 r2,
        exchange_finish hash st r = some st' →
        st.session_.session_id_ = [] →
        st'.session_.exchange_hash_ ≠ [] →
        st2.session_ = st'.session_ →
        st2.dh_ = some { p := p2, g := g2, priv := some x2 } →
        ∃ st2', exchange_finish hash st2 r2 = some st2' ∧
          st2'.session_.session_id_ = st'.session_.exchange_hash_ ∧
          st2'.session_.exchange_hash_ =
            hash (SSH.String.encode st2.session_.client_version_
              ++ SSH.String.encode st2.session_.server_version_
              ++ SSH.String.encode st2.session_.client_kexinit_
              ++ SSH.String.encode st2.session_.server_kexinit_
              ++ SSH.String.encode st2.session_.server_host_key_.public_key
              ++ st2.key_exchange_
              ++ SSH.MPInt.encode (r2 ^ x2 % p2)) ∧
          st2'.session_.shared_secret_ =
            st2.session_.shared_secret_ ++ SSH.MPInt.encode (r2 ^ x2 % p2)) := by
  refine ⟨?_, ?_, ?_⟩
  · intro hsid
    refine ⟨_, exchange_finish_eval hash st p g x r hdh, ?_⟩
    simp [hsid]
  · intro hsid
    refine ⟨_, exchange_finish_eval hash st p g x r hdh, ?_, rfl, rfl⟩
    simp [hsid]
  · intro st' st2 p2 g2 x2 r2 heq hsid hne hsess hdh2
    rw [exchange_finish_eval hash st p g x r hdh] at heq
    cases heq
    refine ⟨_, exchange_finish_eval hash st2 p2 g2 x2 r2 hdh2, ?_, rfl, rfl⟩
    simp only [hsess] at hne ⊢
    simp only [hsid, if_pos rfl] at hne ⊢
    simp
    intro hfalse
    exact absurd hfalse (by simpa using hne)

/-- C8 witness: first handshake sets `session_id` to the exchange hash;
a handshake over a session with a populated `session_id` leaves it
unchanged; a rekey over the committed session keeps the first exchange
hash as `session_id` while updating `exchange_hash` and appending to
`shared_secret`. -/
theorem C8_session_id_write_once_witness :
    (∃ st', exchange_finish hFix stRejFix 8 = some st' ∧
      st'.session_.session_id_ = st'.session_.exchange_hash_)
    ∧ (∃ st', exchange_finish hFix stPopFix 8 = some st' ∧
      st'.session_.session_id_ = stPopFix.session_.session_id_ ∧
      st'.session_.exchange_hash_ =
        hFix (SSH.String.encode stPopFix.session_.client_version_
          ++ SSH.String.encode stPopFix.session_.server_version_
          ++ SSH.String.encode stPopFix.session_.client_kexinit_
          ++ SSH.String.encode stPopFix.session_.server_kexinit_
          ++ SSH.String.encode stPopFix.session_.server_host_key_.public_key
          ++ stPopFix.key_exchange_
          ++ SSH.MPInt.encode (8 ^ 6 % 23)) ∧
      st'.session_.shared_secret_ =
        stPopFix.session_.shared_secret_ ++ SSH.MPInt.encode (8 ^ 6 % 23))
    ∧ (∃ st2', exchange_finish hFix stRekeyFix 4 = some st2' ∧
      st2'.session_.session_id_ = stFin1Fix.session_.exchange_hash_ ∧
      st2'.session_.exchange_hash_ =
        hFix (SSH.String.encode stRekeyFix.session_.client_version_
          ++ SSH.String.encode stRekeyFix.session_.server_version_
          ++ SSH.String.encode stRekeyFix.session_.client_kexinit_
          ++ SSH.String.encode stRekeyFix.session_.server_kexinit_
          ++ SSH.String.encode stRekeyFix.session_.server_host_key_.public_key
          ++ stRekeyFix.key_exchange_
          ++ SSH.MPInt.encode (4 ^ 3 % 23)) ∧
      st2'.session_.shared_secret_ =
        stRekeyFix.session_.shared_secret_ ++ SSH.MPInt.encode (4 ^ 3 % 23)) :=
  ⟨(C8_session_id_write_once hFix stRejFix 23 5 6 8 rfl).1 rfl,
   (C8_session_id_write_once hFix stPopFix 23 5 6 8 rfl).2.1 (by decide),
   (C8_session_id_write_once hFix stRejFix 23 5 6 8 rfl).2.2
     stFin1Fix stRekeyFix 23 5 3 4 rfl rfl (by decide) rfl rfl⟩

theorem inputRequest_failure_session (st : KexState) (rest : Buffer) (st' : KexState)
    (h : inputRequest st rest = InputResult.failure st') : st'.session_ = st.session_ := by
  unfold inputRequest at h
  repeat' split at h
  all_goals cases h
  all_goals rfl

theorem inputGroup_failure_session (st : KexState) (x : Nat) (rest : Buffer) (st' : KexState)
    (h : inputGroup st x rest = InputResult.failure st') : st'.session_ = st.session_ := by
  unfold inputGroup at h
  dsimp only at h
  repeat' split at h
  all_goals cases h
  all_goals rfl

theorem inputInitMsg_failure_session (hash : Buffer → Buffer) (st : KexState)
    (x uf : Nat) (rest : Buffer) (st' : KexState)
    (h : inputInitMsg hash st x uf rest = InputResult.failure st') :
    st'.session_ = st.session_ ∨
    ∃ stp r stc, exchange_finish hash stp r = some stc ∧ st'.session_ = stc.session_ := by
  unfold inputInitMsg at h
  dsimp only at h
  repeat' split at h
  all_goals cases h
  all_goals first
    | exact Or.inl rfl
    | exact Or.inr ⟨_, _, _, by assumption, rfl⟩

theorem inputReply_failure_session (hash : Buffer → Buffer) (st : KexState)
    (rest : Buffer) (st' : KexState)
    (h : inputReply hash st rest = InputResult.failure st') :
    st'.session_ = st.session_ ∨
    ∃ stp r stc, exchange_finish hash stp r = some stc ∧ st'.session_ = stc.session_ := by
  unfold inputReply at h
  dsimp only at h
  repeat' split at h
  all_goals cases h
  all_goals first
    | exact Or.inl rfl
    | exact Or.inr ⟨_, _, _, by assumption, rfl⟩

/-- C2 (amended): whenever `input()` returns failure, the session fields
are either untouched (every failure occurring before `exchange_finish`
is invoked) or exactly the fields committed by an `exchange_finish`
call: in particular, when the Initiator's verification of the Reply
signature fails — and when the Responder's signing fails —
`exchange_hash`, `shared_secret` and `session_id` have already been
populated with the values computed during the failed branch. -/
theorem C2_failure_session_commit (hash : Buffer → Buffer) (st : KexState)
    (x uf : Nat) (inb : Buffer) (st' : KexState)
    (h : input hash st x uf inb = InputResult.failure st') :
    st'.session_ = st.session_ ∨
    ∃ stp r stc, exchange_finish hash stp r = some stc ∧ st'.session_ = stc.session_ := by
  cases inb with
  | nil => simp [input] at h
  | cons tag rest =>
    simp only [input] at h
    repeat' split at h
    · exact Or.inl (inputRequest_failure_session st rest st' h)
    · exact Or.inl (inputGroup_failure_session st x rest st' h)
    · exact inputInitMsg_failure_session hash st x uf rest st' h
    · exact inputReply_failure_session hash st rest st' h
    · cases h; exact Or.inl rfl

/-- C2 witness: the concrete Reply-verification failure, where the
fields left in the failure state are exactly an `exchange_finish`
commit. -/
theorem C2_failure_session_commit_witness :
    stRejFailFix.session_ = stRejFix.session_ ∨
    ∃ stp r stc, exchange_finish hFix stp r = some stc ∧
      stRejFailFix.session_ = stc.session_ :=
  C2_failure_session_commit hFix stRejFix 6 0 replyFix stRejFailFix rfl

/-- C2 counterexample to the claim as stated: on a Reply whose signature
fails verification, `input()` returns failure yet leaves
`exchange_hash`, `shared_secret` and `session_id` populated with the
values computed during that failed branch (they were all empty
before). -/
theorem C2_counterexample :
    (input hFix stRejFix 6 0 replyFix).isFailure = true
    ∧ stRejFix.session_.exchange_hash_ = []
    ∧ stRejFix.session_.shared_secret_ = []
    ∧ stRejFix.session_.session_id_ = []
    ∧ ((input hFix stRejFix 6 0 replyFix).state?).map
        (fun s => (s.session_.exchange_hash_, s.session_.shared_secret_,
          s.session_.session_id_))
      = some ([36], [0, 0, 0, 1, 13], [36]) := by
  decide

set_option maxRecDepth 100000 in
/-- C1 (code bug): on a valid tag-32 message, the Responder's emitted
Reply is tag 33 followed by the length-prefixed host-key blob, a
big-integer field, and the length-prefixed signature — but the
big-integer field encodes the never-assigned local `BIGNUM *f` (source
line 273; modelled as the indeterminate parameter, here 0 and 1), not
the computed local public value `fr = g ^ x mod p = 8` that was appended
to the transcript and hashed: the emitted packet varies with the
indeterminate value and differs from the encoding of `fr`. -/
theorem C1_uninitialized_f_in_reply :
    (input hFix st1Fix 3 0 ([32] ++ SSH.MPInt.encode 9)).isSuccess = true
    ∧ (input hFix st1Fix 3 0 ([32] ++ SSH.MPInt.encode 9)).produced =
        [[33] ++ SSH.String.encode [5] ++ SSH.MPInt.encode 0 ++ SSH.String.encode [1, 2]]
    ∧ (input hFix st1Fix 3 1 ([32] ++ SSH.MPInt.encode 9)).produced =
        [[33] ++ SSH.String.encode [5] ++ SSH.MPInt.encode 1 ++ SSH.String.encode [1, 2]]
    ∧ ((input hFix st1Fix 3 0 ([32] ++ SSH.MPInt.encode 9)).ok?).map
        (fun s => s.key_exchange_) =
      some ((reqFix.drop 1)
        ++ (SSH.MPInt.encode testPrime ++ SSH.MPInt.encode 2)
        ++ SSH.MPInt.encode 9
        ++ SSH.MPInt.encode (DHParams.pub testPrime 2 3))
    ∧ DHParams.pub testPrime 2 3 = 8
    ∧ SSH.MPInt.encode 0 ≠ SSH.MPInt.encode 8
    ∧ (input hFix st1Fix 3 0 ([32] ++ SSH.MPInt.encode 9)).produced ≠
      (input hFix st1Fix 3 1 ([32] ++ SSH.MPInt.encode 9)).produced := by
  decide

theorem inputRequest_eval (st : KexState) (minv nv maxv n' : Nat)
    (hrole : st.session_.role_ = Role.ServerRole)
    (hclamp : requestClamp minv nv maxv = some n')
    (hmin : minv < 4294967296) (hn : nv < 4294967296) (hmax : maxv < 4294967296) :
    inputRequest st
        (SSH.UInt32.encode minv ++ (SSH.UInt32.encode nv ++ SSH.UInt32.encode maxv)) =
      InputResult.success
        { st with
          dh_ := some { p := testPrime, g := 2, priv := none },
          key_exchange_ :=
            (SSH.UInt32.encode minv ++ (SSH.UInt32.encode nv ++ SSH.UInt32.encode maxv))
              ++ (SSH.MPInt.encode testPrime ++ SSH.MPInt.encode 2) }
        [[DiffieHellmanGroupExchangeGroup]
          ++ (SSH.MPInt.encode testPrime ++ SSH.MPInt.encode 2)]
        false := by
  simp only [inputRequest, hrole,
    uint32_decode_encode_lt minv (SSH.UInt32.encode nv ++ SSH.UInt32.encode maxv) hmin,
    uint32_decode_encode_lt nv (SSH.UInt32.encode maxv) hn,
    uint32_decode_encode_nil maxv hmax,
    hclamp, testGroup_decode1, testGroup_decode2]
  simp

set_option maxRecDepth 100000 in
/-- C9 counterexample to the claim as stated: the Responder's Group
message on a valid Request does carry the compiled-in fixed test prime
and generator 2, but that prime is not a 1031-bit integer (it is
smaller than `2 ^ 1030`). -/
theorem C9_counterexample :
    (input hFix (mkState sessFixS) 3 0 reqFix).produced =
      [[31] ++ (SSH.MPInt.encode testPrime ++ SSH.MPInt.encode 2)]
    ∧ ¬ (2 ^ 1030 ≤ testPrime ∧ testPrime < 2 ^ 1031) := by
  decide

set_option maxRecDepth 100000 in
/-- C9 (amended): when the Responder processes a valid Request with the
fixed test group in use, `input()` succeeds and emits a Group message
(tag 31) whose prime is the compiled-in fixed test prime of 1024 bits
and whose generator is 2. -/
theorem C9_group_message (hash : Buffer → Buffer) (s : Session)
    (minv nv maxv n' x uf : Nat)
    (hrole : s.role_ = Role.ServerRole)
    (hclamp : requestClamp minv nv maxv = some n')
    (hmin : minv < 4294967296) (hn : nv < 4294967296) (hmax : maxv < 4294967296) :
    ∃ st', input hash (mkState s) x uf
        ([34] ++ (SSH.UInt32.encode minv ++ (SSH.UInt32.encode nv ++ SSH.UInt32.encode maxv))) =
      InputResult.success st'
        [[DiffieHellmanGroupExchangeGroup]
          ++ (SSH.MPInt.encode testPrime ++ SSH.MPInt.encode 2)]
        false
    ∧ st'.dh_ = some { p := testPrime, g := 2, priv := none }
    ∧ 2 ^ 1023 ≤ testPrime ∧ testPrime < 2 ^ 1024 := by
  refine ⟨_,
    by simpa [input, DiffieHellmanGroupExchangeRequest] using
      inputRequest_eval (mkState s) minv nv maxv n' hrole hclamp hmin hn hmax,
    rfl, by decide, by decide⟩

set_option maxRecDepth 100000 in
/-- C9 witness: the concrete Request (1024, 1024, 8192). -/
theorem C9_group_message_witness :
    requestClamp 1024 1024 8192 = some 1024 ∧
    ∃ st', input hFix (mkState sessFixS) 3 0
        ([34] ++ (SSH.UInt32.encode 1024 ++ (SSH.UInt32.encode 1024 ++ SSH.UInt32.encode 8192))) =
      InputResult.success st'
        [[DiffieHellmanGroupExchangeGroup]
          ++ (SSH.MPInt.encode testPrime ++ SSH.MPInt.encode 2)]
        false
    ∧ st'.dh_ = some { p := testPrime, g := 2, priv := none }
    ∧ 2 ^ 1023 ≤ testPrime ∧ testPrime < 2 ^ 1024 :=
  ⟨by decide,
   C9_group_message hFix sessFixS 1024 1024 8192 1024 3 0 rfl (by decide)
     (by decide) (by decide) (by decide)⟩

theorem inputRequest_eval_clamp_none (st : KexState) (minv nv maxv : Nat)
    (hrole : st.session_.role_ = Role.ServerRole)
    (hclamp : requestClamp minv nv maxv = none)
    (hmin : minv < 4294967296) (hn : nv < 4294967296) (hmax : maxv < 4294967296) :
    inputRequest st
        (SSH.UInt32.encode minv ++ (SSH.UInt32.encode nv ++ SSH.UInt32.encode maxv)) =
      InputResult.failure
        { st with
          key_exchange_ :=
            SSH.UInt32.encode minv ++ (SSH.UInt32.encode nv ++ SSH.UInt32.encode maxv) } := by
  simp only [inputRequest, hrole,
    uint32_decode_encode_lt minv (SSH.UInt32.encode nv ++ SSH.UInt32.encode maxv) hmin,
    uint32_decode_encode_lt nv (SSH.UInt32.encode maxv) hn,
    uint32_decode_encode_nil maxv hmax, hclamp]
  simp

/-- C6: in the Request branch, `min` is clamped up to 1024 and `max`
down to 8192; processing fails exactly when the clamped `min` exceeds
the clamped `max`; otherwise the resulting `n` is clamped into
`[min, max]`, so `clamp(min,1024,8192) ≤ n' ≤ clamp(max,1024,8192)`. -/
theorem C6_request_clamping (minv nv maxv : Nat) :
    (requestClamp minv nv maxv = none ↔
      min maxv DH_GROUP_MAX < max minv DH_GROUP_MIN)
    ∧ (∀ n', requestClamp minv nv maxv = some n' →
        specClamp minv DH_GROUP_MIN DH_GROUP_MAX ≤ n'
        ∧ n' ≤ specClamp maxv DH_GROUP_MIN DH_GROUP_MAX
        ∧ max minv DH_GROUP_MIN ≤ n' ∧ n' ≤ min maxv DH_GROUP_MAX)
    ∧ (∀ (hash : Buffer → Buffer) (s : Session) (x uf : Nat),
        s.role_ = Role.ServerRole →
        minv < 4294967296 → nv < 4294967296 → maxv < 4294967296 →
        ((input hash (mkState s) x uf
            ([34] ++ (SSH.UInt32.encode minv
              ++ (SSH.UInt32.encode nv ++ SSH.UInt32.encode maxv)))).isFailure = true
          ↔ requestClamp minv nv maxv = none)) := by
  refine ⟨?_, ?_, ?_⟩
  · unfold requestClamp
    dsimp only [DH_GROUP_MIN, DH_GROUP_MAX]
    split_ifs with h1 h2 h3 <;> simp <;> omega
  · intro n' h
    unfold requestClamp at h
    dsimp only [DH_GROUP_MIN, DH_GROUP_MAX] at h
    unfold specClamp
    dsimp only [DH_GROUP_MIN, DH_GROUP_MAX]
    split_ifs at h <;> cases h <;> split_ifs <;> omega
  · intro hash s x uf hrole hmin hn hmax
    cases hcl : requestClamp minv nv maxv with
    | some n' =>
      have h := inputRequest_eval (mkState s) minv nv maxv n' hrole hcl hmin hn hmax
      simp [input, DiffieHellmanGroupExchangeRequest, h, InputResult.isFailure]
    | none =>
      have h := inputRequest_eval_clamp_none (mkState s) minv nv maxv hrole hcl hmin hn hmax
      simp [input, DiffieHellmanGroupExchangeRequest, h, InputResult.isFailure]

/-- C6 witness: a triple whose clamped min exceeds the clamped max
fails (also at `input()` level), and a valid triple yields a clamped
`n` within the spec bounds. -/
theorem C6_request_clamping_witness :
    (requestClamp 9000 5000 9000 = none ↔
      min 9000 DH_GROUP_MAX < max 9000 DH_GROUP_MIN)
    ∧ (specClamp 2048 DH_GROUP_MIN DH_GROUP_MAX ≤ 4096
       ∧ 4096 ≤ specClamp 16384 DH_GROUP_MIN DH_GROUP_MAX
       ∧ max 2048 DH_GROUP_MIN ≤ 4096 ∧ 4096 ≤ min 16384 DH_GROUP_MAX)
    ∧ ((input hFix (mkState sessFixS) 3 0
          ([34] ++ (SSH.UInt32.encode 9000
            ++ (SSH.UInt32.encode 5000 ++ SSH.UInt32.encode 9000)))).isFailure = true
        ↔ requestClamp 9000 5000 9000 = none) :=
  ⟨(C6_request_clamping 9000 5000 9000).1,
   (C6_request_clamping 2048 4096 16384).2.1 4096 (by decide),
   (C6_request_clamping 9000 5000 9000).2.2 hFix sessFixS 3 0 rfl
     (by decide) (by decide) (by decide)⟩

/-- C7: `input()` fails on tags 34 and 32 received by a non-Responder,
on tags 31 and 33 received by a non-Initiator, on any tag outside
{31, 32, 33, 34}, and on any field-decode failure (including the
host-key blob validation); each failure is the branch's terminal
`false` return, with no retry in this layer. -/
theorem C7_dispatch (hash : Buffer → Buffer) (st : KexState) (x uf : Nat)
    (tag : Nat) (rest : Buffer) :
    (tag = 34 → st.session_.role_ ≠ Role.ServerRole →
      input hash st x uf (tag :: rest) = InputResult.failure st)
    ∧ (tag = 32 → st.session_.role_ ≠ Role.ServerRole →
      input hash st x uf (tag :: rest) = InputResult.failure st)
    ∧ (tag = 31 → st.session_.role_ ≠ Role.ClientRole →
      input hash st x uf (tag :: rest) = InputResult.failure st)
    ∧ (tag = 33 → st.session_.role_ ≠ Role.ClientRole →
      input hash st x uf (tag :: rest) = InputResult.failure st)
    ∧ (tag ≠ 31 → tag ≠ 32 → tag ≠ 33 → tag ≠ 34 →
      input hash st x uf (tag :: rest) = InputResult.failure st)
    ∧ (tag = 34 → st.session_.role_ = Role.ServerRole →
      SSH.UInt32.decode rest = none →
      (input hash st x uf (tag :: rest)).isFailure = true)
    ∧ (tag = 34 → st.session_.role_ = Role.ServerRole →
      ∀ a r1, SSH.UInt32.decode rest = some (a, r1) →
      SSH.UInt32.decode r1 = none →
      (input hash st x uf (tag :: rest)).isFailure = true)
    ∧ (tag = 34 → st.session_.role_ = Role.ServerRole →
      ∀ a r1 b r2, SSH.UInt32.decode rest = some (a, r1) →
      SSH.UInt32.decode r1 = some (b, r2) → SSH.UInt32.decode r2 = none →
      (input hash st x uf (tag :: rest)).isFailure = true)
    ∧ (tag = 31 → st.session_.role_ = Role.ClientRole →
      SSH.MPInt.decode rest = none →
      (input hash st x uf (tag :: rest)).isFailure = true)
    ∧ (tag = 31 → st.session_.role_ = Role.ClientRole →
      ∀ p r1, SSH.MPInt.decode rest = some (p, r1) →
      SSH.MPInt.decode r1 = none →
      (input hash st x uf (tag :: rest)).isFailure = true)
    ∧ (tag = 32 → st.session_.role_ = Role.ServerRole →
      SSH.MPInt.decode rest = none →
      (input hash st x uf (tag :: rest)).isFailure = true)
    ∧ (tag = 33 → st.session_.role_ = Role.ClientRole →
      SSH.String.decode rest = none →
      (input hash st x uf (tag :: rest)).isFailure = true)
    ∧ (tag = 33 → st.session_.role_ = Role.ClientRole →
      ∀ b r1, SSH.String.decode rest = some (b, r1) →
      SSH.MPInt.decode r1 = none →
      (input hash st x uf (tag :: rest)).isFailure = true)
    ∧ (tag = 33 → st.session_.role_ = Role.ClientRole →
      ∀ b r1 f r2, SSH.String.decode rest = some (b, r1) →
      SSH.MPInt.decode r1 = some (f, r2) → SSH.String.decode r2 = none →
      (input hash st x uf (tag :: rest)).isFailure = true)
    ∧ (tag = 33 → st.session_.role_ = Role.ClientRole →
      ∀ b r1 f r2 sg r3, SSH.String.decode rest = some (b, r1) →
      SSH.MPInt.decode r1 = some (f, r2) → SSH.String.decode r2 = some (sg, r3) →
      st.session_.server_host_key_.decode_public_key b = false →
      (input hash st x uf (tag :: rest)).isFailure = true) := by
  refine ⟨?_, ?_, ?_, ?_, ?_, ?_, ?_, ?_, ?_, ?_, ?_, ?_, ?_, ?_, ?_⟩
  · intro htag hrole; subst htag
    simp [input, DiffieHellmanGroupExchangeRequest, DiffieHellmanGroupExchangeGroup,
      DiffieHellmanGroupExchangeInitMsg, DiffieHellmanGroupExchangeReply,
      inputRequest, hrole]
  · intro htag hrole; subst htag
    simp [input, DiffieHellmanGroupExchangeRequest, DiffieHellmanGroupExchangeGroup,
      DiffieHellmanGroupExchangeInitMsg, DiffieHellmanGroupExchangeReply,
      inputInitMsg, hrole]
  · intro htag hrole; subst htag
    simp [input, DiffieHellmanGroupExchangeRequest, DiffieHellmanGroupExchangeGroup,
      DiffieHellmanGroupExchangeInitMsg, DiffieHellmanGroupExchangeReply,
      inputGroup, hrole]
  · intro htag hrole; subst htag
    simp [input, DiffieHellmanGroupExchangeRequest, DiffieHellmanGroupExchangeGroup,
      DiffieHellmanGroupExchangeInitMsg, DiffieHellmanGroupExchangeReply,
      inputReply, hrole]
  · intro h31 h32 h33 h34
    simp [input, DiffieHellmanGroupExchangeRequest, DiffieHellmanGroupExchangeGroup,
      DiffieHellmanGroupExchangeInitMsg, DiffieHellmanGroupExchangeReply,
      h31, h32, h33, h34]
  · intro htag hrole hdec; subst htag
    simp [input, DiffieHellmanGroupExchangeRequest, inputRequest, hrole, hdec,
      InputResult.isFailure]
  · intro htag hrole a r1 hd1 hd2; subst htag
    simp [input, DiffieHellmanGroupExchangeRequest, inputRequest, hrole, hd1, hd2,
      InputResult.isFailure]
  · intro htag hrole a r1 b r2 hd1 hd2 hd3; subst htag
    simp [input, DiffieHellmanGroupExchangeRequest, inputRequest, hrole, hd1, hd2, hd3,
      InputResult.isFailure]
  · intro htag hrole hdec; subst htag
    simp [input, DiffieHellmanGroupExchangeRequest, DiffieHellmanGroupExchangeGroup,
      inputGroup, hrole, hdec, InputResult.isFailure]
  · intro htag hrole p r1 hd1 hd2; subst htag
    simp [input, DiffieHellmanGroupExchangeRequest, DiffieHellmanGroupExchangeGroup,
      inputGroup, hrole, hd1, hd2, InputResult.isFailure]
  · intro htag hrole hdec; subst htag
    simp [input, DiffieHellmanGroupExchangeRequest, DiffieHellmanGroupExchangeGroup,
      DiffieHellmanGroupExchangeInitMsg, inputInitMsg, hrole, hdec,
      InputResult.isFailure]
  · intro htag hrole hdec; subst htag
    simp [input, DiffieHellmanGroupExchangeRequest, DiffieHellmanGroupExchangeGroup,
      DiffieHellmanGroupExchangeInitMsg, DiffieHellmanGroupExchangeReply,
      inputReply, hrole, hdec, InputResult.isFailure]
  · intro htag hrole b r1 hd1 hd2; subst htag
    simp [input, DiffieHellmanGroupExchangeRequest, DiffieHellmanGroupExchangeGroup,
      DiffieHellmanGroupExchangeInitMsg, DiffieHellmanGroupExchangeReply,
      inputReply, hrole, hd1, hd2, InputResult.isFailure]
  · intro htag hrole b r1 f r2 hd1 hd2 hd3; subst htag
    simp [input, DiffieHellmanGroupExchangeRequest, DiffieHellmanGroupExchangeGroup,
      DiffieHellmanGroupExchangeInitMsg, DiffieHellmanGroupExchangeReply,
      inputReply, hrole, hd1, hd2, hd3, InputResult.isFailure]
  · intro htag hrole b r1 f r2 sg r3 hd1 hd2 hd3 hkey; subst htag
    simp [input, DiffieHellmanGroupExchangeRequest, DiffieHellmanGroupExchangeGroup,
      DiffieHellmanGroupExchangeInitMsg, DiffieHellmanGroupExchangeReply,
      inputReply, hrole, hd1, hd2, hd3, hkey, InputResult.isFailure]

/-- C7 witness: a Request to an Initiator fails, a Group to a Responder
fails, an unknown tag fails, a truncated Request body fails, and an
empty Reply body fails. -/
theorem C7_dispatch_witness :
    input hFix (mkState sessFixC) 3 0 (34 :: [0, 0, 4, 0]) =
      InputResult.failure (mkState sessFixC)
    ∧ input hFix (mkState sessFixS) 3 0 (31 :: [1]) =
      InputResult.failure (mkState sessFixS)
    ∧ input hFix (mkState sessFixS) 3 0 (99 :: []) =
      InputResult.failure (mkState sessFixS)
    ∧ (input hFix (mkState sessFixS) 3 0 (34 :: [1, 2])).isFailure = true
    ∧ (input hFix (mkState sessFixC) 3 0 (33 :: [])).isFailure = true :=
  ⟨(C7_dispatch hFix (mkState sessFixC) 3 0 34 [0, 0, 4, 0]).1 rfl (by decide),
   (C7_dispatch hFix (mkState sessFixS) 3 0 31 [1]).2.2.1 rfl (by decide),
   (C7_dispatch hFix (mkState sessFixS) 3 0 99 []).2.2.2.2.1
     (by decide) (by decide) (by decide) (by decide),
   (C7_dispatch hFix (mkState sessFixS) 3 0 34 [1, 2]).2.2.2.2.2.1 rfl rfl rfl,
   (C7_dispatch hFix (mkState sessFixC) 3 0 33 []).2.2.2.2.2.2.2.2.2.2.2.1
     rfl rfl rfl⟩

theorem exchange_finish_ne_none (hash : Buffer → Buffer) (st : KexState)
    (p g x r : Nat)
    (hdh : st.dh_ = some { p := p, g := g, priv := some x }) :
    exchange_finish hash st r ≠ none := by
  rw [exchange_finish_eval hash st p g x r hdh]
  simp

theorem input_cons_34 (hash : Buffer → Buffer) (st : KexState) (x uf : Nat)
    (rest : Buffer) :
    input hash st x uf (34 :: rest) = inputRequest st rest := by
  simp [input, DiffieHellmanGroupExchangeRequest]

theorem input_cons_31 (hash : Buffer → Buffer) (st : KexState) (x uf : Nat)
    (rest : Buffer) :
    input hash st x uf (31 :: rest) = inputGroup st x rest := by
  simp [input, DiffieHellmanGroupExchangeRequest, DiffieHellmanGroupExchangeGroup]

theorem input_cons_32 (hash : Buffer → Buffer) (st : KexState) (x uf : Nat)
    (rest : Buffer) :
    input hash st x uf (32 :: rest) = inputInitMsg hash st x uf rest := by
  simp [input, DiffieHellmanGroupExchangeRequest, DiffieHellmanGroupExchangeGroup,
    DiffieHellmanGroupExchangeInitMsg]

theorem input_cons_33 (hash : Buffer → Buffer) (st : KexState) (x uf : Nat)
    (rest : Buffer) :
    input hash st x uf (33 :: rest) = inputReply hash st rest := by
  simp [input, DiffieHellmanGroupExchangeRequest, DiffieHellmanGroupExchangeGroup,
    DiffieHellmanGroupExchangeInitMsg, DiffieHellmanGroupExchangeReply]

theorem inputRequest_success_dh (st : KexState) (rest : Buffer)
    (st' : KexState) (out : List Buffer) (fl : Bool)
    (h : inputRequest st rest = InputResult.success st' out fl) :
    st'.dh_ = some { p := testPrime, g := 2, priv := none } := by
  unfold inputRequest at h
  rw [testGroup_decode1] at h
  dsimp only at h
  rw [testGroup_decode2] at h
  dsimp only at h
  repeat' split at h
  all_goals cases h
  all_goals rfl

theorem inputGroup_success_dh (st : KexState) (x : Nat) (rest : Buffer)
    (st' : KexState) (out : List Buffer) (fl : Bool)
    (h : inputGroup st x rest = InputResult.success st' out fl) :
    ∃ p g, st'.dh_ = some { p := p, g := g, priv := some x } := by
  unfold inputGroup at h
  dsimp only at h
  repeat' split at h
  all_goals cases h
  all_goals exact ⟨_, _, rfl⟩

theorem inputInitMsg_dh_some_not_undef (hash : Buffer → Buffer) (st : KexState)
    (x uf : Nat) (rest : Buffer) (d : DHParams) (hdh : st.dh_ = some d) :
    (inputInitMsg hash st x uf rest).isUndef = false := by
  unfold inputInitMsg
  dsimp only
  repeat' split
  all_goals try rfl
  all_goals try (simp_all; done)
  all_goals rename_i heq
  all_goals exact absurd heq (exchange_finish_ne_none _ _ _ _ _ _ rfl)

theorem inputReply_dh_keypair_not_undef (hash : Buffer → Buffer) (st : KexState)
    (rest : Buffer) (p g x0 : Nat)
    (hdh : st.dh_ = some { p := p, g := g, priv := some x0 }) :
    (inputReply hash st rest).isUndef = false := by
  unfold inputReply
  dsimp only
  repeat' split
  all_goals try rfl
  all_goals try (simp_all; done)
  all_goals rename_i heq
  all_goals exact absurd heq (exchange_finish_ne_none _ _ _ _ _ _ hdh)

/-- C10: the group pointer `dh_` starts unset at construction; a
successful Request (Responder) or Group (Initiator) processing assigns
it; with it assigned, the tag-32 and Reply branches never reach the
unset-group operations; without that precondition, a well-formed tag-32
message to a Responder or Reply to an Initiator drives
`DH_generate_key`/`exchange_finish` into the unset group — undefined
behavior, which `input()` never checks for. -/
theorem C10_group_precondition (hash : Buffer → Buffer) (s : Session)
    (st : KexState) (x uf : Nat) (rest : Buffer) :
    (mkState s).dh_ = none
    ∧ (∀ st' out fl,
        input hash (mkState s) x uf (34 :: rest) = InputResult.success st' out fl →
        st'.dh_ = some { p := testPrime, g := 2, priv := none })
    ∧ (∀ st' out fl,
        input hash st x uf (31 :: rest) = InputResult.success st' out fl →
        ∃ p g, st'.dh_ = some { p := p, g := g, priv := some x })
    ∧ (∀ d, st.dh_ = some d → (input hash st x uf (32 :: rest)).isUndef = false)
    ∧ (∀ p g x0, st.dh_ = some { p := p, g := g, priv := some x0 } →
        (input hash st x uf (33 :: rest)).isUndef = false)
    ∧ (∀ e r1, st.dh_ = none → st.session_.role_ = Role.ServerRole →
        SSH.MPInt.decode rest = some (e, r1) →
        input hash st x uf (32 :: rest) = InputResult.undef)
    ∧ (∀ b r1 f r2 sg r3, st.dh_ = none → st.session_.role_ = Role.ClientRole →
        SSH.String.decode rest = some (b, r1) → SSH.MPInt.decode r1 = some (f, r2) →
        SSH.String.decode r2 = some (sg, r3) →
        st.session_.server_host_key_.decode_public_key b = true →
        input hash st x uf (33 :: rest) = InputResult.undef) := by
  refine ⟨rfl, ?_, ?_, ?_, ?_, ?_, ?_⟩
  · intro st' out fl h
    rw [input_cons_34] at h
    exact inputRequest_success_dh (mkState s) rest st' out fl h
  · intro st' out fl h
    rw [input_cons_31] at h
    exact inputGroup_success_dh st x rest st' out fl h
  · intro d hdh
    rw [input_cons_32]
    exact inputInitMsg_dh_some_not_undef hash st x uf rest d hdh
  · intro p g x0 hdh
    rw [input_cons_33]
    exact inputReply_dh_keypair_not_undef hash st rest p g x0 hdh
  · intro e r1 hdh hrole hdec
    rw [input_cons_32]
    simp [inputInitMsg, hrole, hdec, hdh]
  · intro b r1 f r2 sg r3 hdh hrole hd1 hd2 hd3 hkey
    rw [input_cons_33]
    simp [inputReply, hrole, hd1, hd2, hd3, hkey, exchange_finish, hdh]

set_option maxRecDepth 100000 in
/-- C10 witness: a fresh state has no group; the Request assigns the
test group; with the group (and keypair) assigned the tag-32 and Reply
branches are defined; a fresh Responder fed a tag-32 message, or a
fresh Initiator fed a Reply, runs into the unset group. -/
theorem C10_group_precondition_witness :
    (mkState sessFixS).dh_ = none
    ∧ st1Fix.dh_ = some { p := testPrime, g := 2, priv := none }
    ∧ (input hFix st1Fix 3 0 (32 :: SSH.MPInt.encode 9)).isUndef = false
    ∧ (input hFix stRejFix 6 0
        (33 :: (SSH.String.encode [5]
          ++ (SSH.MPInt.encode 8 ++ SSH.String.encode [1, 2])))).isUndef = false
    ∧ input hFix (mkState sessFixS) 3 0 (32 :: SSH.MPInt.encode 9) = InputResult.undef
    ∧ input hFix (mkState sessFixC) 3 0
        (33 :: (SSH.String.encode [5]
          ++ (SSH.MPInt.encode 8 ++ SSH.String.encode [1, 2]))) = InputResult.undef :=
  ⟨(C10_group_precondition hFix sessFixS (mkState sessFixS) 3 0 []).1,
   (C10_group_precondition hFix sessFixS st1Fix 3 0 (reqFix.drop 1)).2.1 st1Fix
     [[31] ++ (SSH.MPInt.encode testPrime ++ SSH.MPInt.encode 2)] false rfl,
   (C10_group_precondition hFix sessFixS st1Fix 3 0 (SSH.MPInt.encode 9)).2.2.2.1
     { p := testPrime, g := 2, priv := none } rfl,
   (C10_group_precondition hFix sessFixS stRejFix 6 0
     (SSH.String.encode [5]
       ++ (SSH.MPInt.encode 8 ++ SSH.String.encode [1, 2]))).2.2.2.2.1 23 5 6 rfl,
   (C10_group_precondition hFix sessFixS (mkState sessFixS) 3 0
     (SSH.MPInt.encode 9)).2.2.2.2.2.1 9 [] rfl rfl (by decide),
   (C10_group_precondition hFix sessFixC (mkState sessFixC) 3 0
     (SSH.String.encode [5]
       ++ (SSH.MPInt.encode 8 ++ SSH.String.encode [1, 2]))).2.2.2.2.2.2
     [5] (SSH.MPInt.encode 8 ++ SSH.String.encode [1, 2]) 8 (SSH.String.encode [1, 2])
     [1, 2] [] rfl rfl (by decide) (by decide) (by decide) rfl⟩


theorem exchange_finish_inv (hash : Buffer → Buffer) (st st2 : KexState) (r : Nat)
    (h : exchange_finish hash st r = some st2) :
    st2.key_exchange_ = st.key_exchange_ ∧
    st2.session_.server_host_key_ = st.session_.server_host_key_ := by
  unfold exchange_finish at h
  repeat' split at h
  all_goals cases h
  all_goals exact ⟨rfl, rfl⟩

theorem inputGroup_eval (st : KexState) (p g x : Nat)
    (hrole : st.session_.role_ = Role.ClientRole)
    (hp : (natToBytesBE p).length + 1 < 4294967296)
    (hg : (natToBytesBE g).length + 1 < 4294967296) :
    inputGroup st x (SSH.MPInt.encode p ++ SSH.MPInt.encode g) =
      InputResult.success
        { st with
          dh_ := some { p := p, g := g, priv := some x },
          key_exchange_ := st.key_exchange_
            ++ (SSH.MPInt.encode p ++ SSH.MPInt.encode g)
            ++ SSH.MPInt.encode (DHParams.pub p g x) }
        [[DiffieHellmanGroupExchangeInitMsg] ++ SSH.MPInt.encode (DHParams.pub p g x)]
        false := by
  simp only [inputGroup, hrole,
    mpint_decode_encode p (SSH.MPInt.encode g) hp,
    mpint_decode_encode_nil g hg]
  simp

theorem inputInitMsg_eval_tx (hash : Buffer → Buffer) (st : KexState)
    (p g e x uf : Nat) (dpr : Option Nat)
    (hrole : st.session_.role_ = Role.ServerRole)
    (hdh : st.dh_ = some { p := p, g := g, priv := dpr })
    (he : (natToBytesBE e).length + 1 < 4294967296)
    (hsign : ∀ d, (st.session_.server_host_key_.sign d).isSome = true) :
    ∃ st2 sg, inputInitMsg hash st x uf (SSH.MPInt.encode e) =
        InputResult.success st2
          [[DiffieHellmanGroupExchangeReply]
            ++ SSH.String.encode st.session_.server_host_key_.public_key
            ++ SSH.MPInt.encode uf
            ++ SSH.String.encode sg] true
      ∧ st2.key_exchange_ = st.key_exchange_ ++ SSH.MPInt.encode e
          ++ SSH.MPInt.encode (DHParams.pub p g x) := by
  unfold inputInitMsg
  rw [hrole, if_neg (show ¬(Role.ServerRole ≠ Role.ServerRole) by simp)]
  dsimp only
  rw [mpint_decode_encode_nil e he]
  dsimp only
  rw [hdh]
  dsimp only
  rcases hfin : exchange_finish hash
      { st with
        dh_ := some { p := p, g := g, priv := some x },
        key_exchange_ := st.key_exchange_ ++ SSH.MPInt.encode e
          ++ SSH.MPInt.encode (DHParams.pub p g x) } e with _ | st2
  · exact absurd hfin (exchange_finish_ne_none _ _ _ _ _ _ rfl)
  · dsimp only
    rcases hs : st2.session_.server_host_key_.sign st2.session_.exchange_hash_
      with _ | sg
    · have hcontra := hsign st2.session_.exchange_hash_
      have hkeq := (exchange_finish_inv hash _ st2 e hfin).2
      rw [hkeq] at hs
      rw [hs] at hcontra
      simp at hcontra
    · dsimp only
      have hinv := exchange_finish_inv hash _ st2 e hfin
      refine ⟨st2, sg, ?_, hinv.1⟩
      rw [hinv.2]

theorem inputReply_eval_tx (hash : Buffer → Buffer) (st : KexState)
    (p g y fpeer : Nat) (blob sig : Buffer)
    (hrole : st.session_.role_ = Role.ClientRole)
    (hdh : st.dh_ = some { p := p, g := g, priv := some y })
    (hblob : blob.length < 4294967296)
    (hfp : (natToBytesBE fpeer).length + 1 < 4294967296)
    (hsig : sig.length < 4294967296)
    (hkey : st.session_.server_host_key_.decode_public_key blob = true)
    (hver : ∀ sg d, st.session_.server_host_key_.verify sg d = true) :
    ∃ st2, inputReply hash st
        (SSH.String.encode blob ++ (SSH.MPInt.encode fpeer ++ SSH.String.encode sig)) =
        InputResult.success st2 [] true
      ∧ st2.key_exchange_ = st.key_exchange_ ++ SSH.MPInt.encode fpeer := by
  unfold inputReply
  rw [hrole, if_neg (show ¬(Role.ClientRole ≠ Role.ClientRole) by simp)]
  rw [string_decode_encode blob (SSH.MPInt.encode fpeer ++ SSH.String.encode sig) hblob]
  dsimp only
  rw [mpint_decode_encode fpeer (SSH.String.encode sig) hfp]
  dsimp only
  rw [string_decode_encode_nil sig hsig]
  dsimp only
  rw [hkey, if_neg (show ¬(¬(true = true)) by simp)]
  rcases hfin : exchange_finish hash
      { st with key_exchange_ := st.key_exchange_ ++ SSH.MPInt.encode fpeer } fpeer
    with _ | st2
  · exact absurd hfin (exchange_finish_ne_none _
      { st with key_exchange_ := st.key_exchange_ ++ SSH.MPInt.encode fpeer }
      p g y fpeer hdh)
  · dsimp only
    have hinv := exchange_finish_inv hash _ st2 fpeer hfin
    rw [hinv.2, hver, if_neg (show ¬(¬(true = true)) by simp)]
    exact ⟨st2, rfl, hinv.1⟩


/-- C3: the Responder's transcript after a complete Request + tag-32
run equals Request-body ∥ Group-body ∥ tag-32-body (tag excluded) ∥
encoding of its local public value `f`, appended after computing it and
before hash construction; the Initiator's transcript after `init()`,
Group and Reply equals Request-body ∥ Group-body ∥ its tag-32 body
(encoding of `e`) ∥ encoding of the peer's public value `f`; every step
only appends to the transcript (each state's transcript extends the
previous one, visible in the stated equalities). -/
theorem C3_transcript (hash : Buffer → Buffer) (sS sC : Session)
    (minv nv maxv n' e x y pc gc fpeer uf : Nat) (blob sig : Buffer)
    (hSrole : sS.role_ = Role.ServerRole)
    (hclamp : requestClamp minv nv maxv = some n')
    (hmin : minv < 4294967296) (hn : nv < 4294967296) (hmax : maxv < 4294967296)
    (he : (natToBytesBE e).length + 1 < 4294967296)
    (hsign : ∀ d, (sS.server_host_key_.sign d).isSome = true)
    (hCrole : sC.role_ = Role.ClientRole)
    (hpc : (natToBytesBE pc).length + 1 < 4294967296)
    (hgc : (natToBytesBE gc).length + 1 < 4294967296)
    (hfp : (natToBytesBE fpeer).length + 1 < 4294967296)
    (hblob : blob.length < 4294967296) (hsig : sig.length < 4294967296)
    (hkey : sC.server_host_key_.decode_public_key blob = true)
    (hver : ∀ sg d, sC.server_host_key_.verify sg d = true) :
    (∃ st1, input hash (mkState sS) x uf
        (34 :: (SSH.UInt32.encode minv ++ (SSH.UInt32.encode nv ++ SSH.UInt32.encode maxv))) =
          InputResult.success st1
            [[DiffieHellmanGroupExchangeGroup]
              ++ (SSH.MPInt.encode testPrime ++ SSH.MPInt.encode 2)] false
      ∧ st1.key_exchange_ =
          (SSH.UInt32.encode minv ++ (SSH.UInt32.encode nv ++ SSH.UInt32.encode maxv))
            ++ (SSH.MPInt.encode testPrime ++ SSH.MPInt.encode 2)
      ∧ ∃ st2 sg, input hash st1 x uf (32 :: SSH.MPInt.encode e) =
          InputResult.success st2
            [[DiffieHellmanGroupExchangeReply]
              ++ SSH.String.encode sS.server_host_key_.public_key
              ++ SSH.MPInt.encode uf
              ++ SSH.String.encode sg] true
        ∧ st2.key_exchange_ =
            (SSH.UInt32.encode minv ++ (SSH.UInt32.encode nv ++ SSH.UInt32.encode maxv))
              ++ (SSH.MPInt.encode testPrime ++ SSH.MPInt.encode 2)
              ++ SSH.MPInt.encode e
              ++ SSH.MPInt.encode (DHParams.pub testPrime 2 x))
    ∧ (∃ stA outA, init (mkState sC) = some (stA, outA)
      ∧ stA.key_exchange_ =
          SSH.UInt32.encode DH_GROUP_MIN ++ SSH.UInt32.encode DH_GROUP_MIN
            ++ SSH.UInt32.encode DH_GROUP_MAX
      ∧ outA = [DiffieHellmanGroupExchangeRequest] ++ stA.key_exchange_
      ∧ ∃ stB, input hash stA y uf
          (31 :: (SSH.MPInt.encode pc ++ SSH.MPInt.encode gc)) =
            InputResult.success stB
              [[DiffieHellmanGroupExchangeInitMsg]
                ++ SSH.MPInt.encode (DHParams.pub pc gc y)] false
        ∧ stB.key_exchange_ = stA.key_exchange_
            ++ (SSH.MPInt.encode pc ++ SSH.MPInt.encode gc)
            ++ SSH.MPInt.encode (DHParams.pub pc gc y)
        ∧ ∃ stC, input hash stB y uf
            (33 :: (SSH.String.encode blob
              ++ (SSH.MPInt.encode fpeer ++ SSH.String.encode sig))) =
              InputResult.success stC [] true
          ∧ stC.key_exchange_ = stA.key_exchange_
              ++ (SSH.MPInt.encode pc ++ SSH.MPInt.encode gc)
              ++ SSH.MPInt.encode (DHParams.pub pc gc y)
              ++ SSH.MPInt.encode fpeer) := by
  constructor
  · have h1 := inputRequest_eval (mkState sS) minv nv maxv n' hSrole hclamp hmin hn hmax
    refine ⟨{ mkState sS with
        dh_ := some { p := testPrime, g := 2, priv := none },
        key_exchange_ :=
          (SSH.UInt32.encode minv ++ (SSH.UInt32.encode nv ++ SSH.UInt32.encode maxv))
            ++ (SSH.MPInt.encode testPrime ++ SSH.MPInt.encode 2) }, ?_, ?_, ?_⟩
    · rw [input_cons_34]; exact h1
    · rfl
    · obtain ⟨st2, sg, hin, htx⟩ := inputInitMsg_eval_tx hash
        { mkState sS with
          dh_ := some { p := testPrime, g := 2, priv := none },
          key_exchange_ :=
            (SSH.UInt32.encode minv ++ (SSH.UInt32.encode nv ++ SSH.UInt32.encode maxv))
              ++ (SSH.MPInt.encode testPrime ++ SSH.MPInt.encode 2) }
        testPrime 2 e x uf none hSrole rfl he hsign
      refine ⟨st2, sg, ?_, ?_⟩
      · rw [input_cons_32]; exact hin
      · exact htx
  · refine ⟨{ mkState sC with
        key_exchange_ := SSH.UInt32.encode DH_GROUP_MIN
          ++ SSH.UInt32.encode DH_GROUP_MIN ++ SSH.UInt32.encode DH_GROUP_MAX },
      [DiffieHellmanGroupExchangeRequest]
        ++ (SSH.UInt32.encode DH_GROUP_MIN ++ SSH.UInt32.encode DH_GROUP_MIN
          ++ SSH.UInt32.encode DH_GROUP_MAX), ?_, rfl, rfl, ?_⟩
    · simp [init, hCrole, mkState]
    · have h2 := inputGroup_eval
        { mkState sC with
          key_exchange_ := SSH.UInt32.encode DH_GROUP_MIN
            ++ SSH.UInt32.encode DH_GROUP_MIN ++ SSH.UInt32.encode DH_GROUP_MAX }
        pc gc y hCrole hpc hgc
      refine ⟨{ mkState sC with
          dh_ := some { p := pc, g := gc, priv := some y },
          key_exchange_ :=
            (SSH.UInt32.encode DH_GROUP_MIN ++ SSH.UInt32.encode DH_GROUP_MIN
              ++ SSH.UInt32.encode DH_GROUP_MAX)
              ++ (SSH.MPInt.encode pc ++ SSH.MPInt.encode gc)
              ++ SSH.MPInt.encode (DHParams.pub pc gc y) }, ?_, ?_, ?_⟩
      · rw [input_cons_31]; exact h2
      · rfl
      · obtain ⟨stC, hrep, htx⟩ := inputReply_eval_tx hash
          { mkState sC with
            dh_ := some { p := pc, g := gc, priv := some y },
            key_exchange_ :=
              (SSH.UInt32.encode DH_GROUP_MIN ++ SSH.UInt32.encode DH_GROUP_MIN
                ++ SSH.UInt32.encode DH_GROUP_MAX)
                ++ (SSH.MPInt.encode pc ++ SSH.MPInt.encode gc)
                ++ SSH.MPInt.encode (DHParams.pub pc gc y) }
          pc gc y fpeer blob sig hCrole rfl hblob hfp hsig hkey hver
        refine ⟨stC, ?_, ?_⟩
        · rw [input_cons_33]; exact hrep
        · exact htx

set_option maxRecDepth 100000 in
/-- C3 witness: a complete concrete run on both sides (Responder with
the test group; Initiator against the small group `p = 23`, `g = 5`). -/
theorem C3_transcript_witness :
    requestClamp 2048 4096 8192 = some 4096
    ∧ ((∃ st1, input hFix (mkState sessFixS) 3 0
        (34 :: (SSH.UInt32.encode 2048 ++ (SSH.UInt32.encode 4096 ++ SSH.UInt32.encode 8192))) =
          InputResult.success st1
            [[DiffieHellmanGroupExchangeGroup]
              ++ (SSH.MPInt.encode testPrime ++ SSH.MPInt.encode 2)] false
      ∧ st1.key_exchange_ =
          (SSH.UInt32.encode 2048 ++ (SSH.UInt32.encode 4096 ++ SSH.UInt32.encode 8192))
            ++ (SSH.MPInt.encode testPrime ++ SSH.MPInt.encode 2)
      ∧ ∃ st2 sg, input hFix st1 3 0 (32 :: SSH.MPInt.encode 9) =
          InputResult.success st2
            [[DiffieHellmanGroupExchangeReply]
              ++ SSH.String.encode sessFixS.server_host_key_.public_key
              ++ SSH.MPInt.encode 0
              ++ SSH.String.encode sg] true
        ∧ st2.key_exchange_ =
            (SSH.UInt32.encode 2048 ++ (SSH.UInt32.encode 4096 ++ SSH.UInt32.encode 8192))
              ++ (SSH.MPInt.encode testPrime ++ SSH.MPInt.encode 2)
              ++ SSH.MPInt.encode 9
              ++ SSH.MPInt.encode (DHParams.pub testPrime 2 3))
    ∧ (∃ stA outA, init (mkState sessFixC) = some (stA, outA)
      ∧ stA.key_exchange_ =
          SSH.UInt32.encode DH_GROUP_MIN ++ SSH.UInt32.encode DH_GROUP_MIN
            ++ SSH.UInt32.encode DH_GROUP_MAX
      ∧ outA = [DiffieHellmanGroupExchangeRequest] ++ stA.key_exchange_
      ∧ ∃ stB, input hFix stA 6 0
          (31 :: (SSH.MPInt.encode 23 ++ SSH.MPInt.encode 5)) =
            InputResult.success stB
              [[DiffieHellmanGroupExchangeInitMsg]
                ++ SSH.MPInt.encode (DHParams.pub 23 5 6)] false
        ∧ stB.key_exchange_ = stA.key_exchange_
            ++ (SSH.MPInt.encode 23 ++ SSH.MPInt.encode 5)
            ++ SSH.MPInt.encode (DHParams.pub 23 5 6)
        ∧ ∃ stC, input hFix stB 6 0
            (33 :: (SSH.String.encode [5]
              ++ (SSH.MPInt.encode 8 ++ SSH.String.encode [1, 2]))) =
              InputResult.success stC [] true
          ∧ stC.key_exchange_ = stA.key_exchange_
              ++ (SSH.MPInt.encode 23 ++ SSH.MPInt.encode 5)
              ++ SSH.MPInt.encode (DHParams.pub 23 5 6)
              ++ SSH.MPInt.encode 8)) :=
  ⟨by decide,
   C3_transcript hFix sessFixS sessFixC 2048 4096 8192 4096 9 3 6 23 5 8 0 [5] [1, 2]
     rfl (by decide) (by decide) (by decide) (by decide) (by decide)
     (fun d => rfl) rfl (by decide) (by decide) (by decide) (by decide) (by decide)
     rfl (fun sg d => rfl)⟩
